import Mathlib

/-!
Verification of the schema-to-type resolver and operation synthesizer of the
oats-generator repository (`src/scripts/import-open-api.ts`), as a shallow
embedding in Lean.  JavaScript strings become `String`, objects become
association lists in insertion order, `undefined`/missing fields become
`Option`, and thrown exceptions become `Except String`.
-/

set_option maxRecDepth 8192

namespace OatsGen

/-- The literal left-brace character, written via its code point. -/
def lbChar : Char := Char.ofNat 123

/-- The literal right-brace character, written via its code point. -/
def rbChar : Char := Char.ofNat 125

/-- The one-character string consisting of a left brace. -/
def lb : String := String.mk [lbChar]

/-- The one-character string consisting of a right brace. -/
def rb : String := String.mk [rbChar]

/-- Does the character list start with the given pattern? -/
def listStarts : List Char → List Char → Bool
  | _, [] => true
  | [], _ :: _ => false
  | c :: cs, p :: ps => c == p && listStarts cs ps

/-- JavaScript `String.prototype.startsWith`, on the underlying characters. -/
def strStartsWith (s pat : String) : Bool := listStarts s.data pat.data

/-- Remove the first occurrence of `pat` from the character list, if any. -/
def removeFirstOcc (pat : List Char) : List Char → Option (List Char)
  | [] => if pat.isEmpty then some [] else none
  | c :: cs =>
    if listStarts (c :: cs) pat then some ((c :: cs).drop pat.length)
    else (removeFirstOcc pat cs).map (c :: ·)

/-- JavaScript `String.prototype.replace(pat, "")` with a *string* pattern:
removes the first occurrence of `pat` (if any) and leaves the rest intact. -/
def replaceFirstOcc (s pat : String) : String :=
  match removeFirstOcc pat.data s.data with
  | some l => String.mk l
  | none => s

/-- JavaScript `Array.prototype.join(sep)`. -/
def joinSep (sep : String) : List String → String
  | [] => ""
  | [x] => x
  | x :: y :: rest => x ++ sep ++ joinSep sep (y :: rest)

/-- Split a character list at a separator character, JavaScript
`String.prototype.split` style (a trailing separator yields a final empty
piece). -/
def splitOnChar (sep : Char) : List Char → List Char → List String
  | [], acc => [String.mk acc.reverse]
  | c :: cs, acc =>
    if c == sep then String.mk acc.reverse :: splitOnChar sep cs []
    else splitOnChar sep cs (c :: acc)

/-- JavaScript `description.split("\n")`. -/
def splitLines (s : String) : List String := splitOnChar '\n' s.data []

/-- Does the character list contain the pattern as a contiguous part? -/
def containsSub (pat : List Char) : List Char → Bool
  | [] => pat.isEmpty
  | c :: cs => listStarts (c :: cs) pat || containsSub pat cs

/-- lodash `uniq` with an accumulator of already-seen elements: keeps the
first occurrence of each element, preserving order. -/
def uniqAux : List String → List String → List String
  | [], _ => []
  | x :: xs, seen =>
    if seen.contains x then uniqAux xs seen else x :: uniqAux xs (x :: seen)

/-- lodash `uniq`: deduplicate, keeping first occurrences in order. -/
def uniqList (l : List String) : List String := uniqAux l []

/-- JavaScript `String.prototype.includes`. -/
def strContains (s pat : String) : Bool := containsSub pat.data s.data

/-- A character matched by the regex class `\w`, i.e. `[A-Za-z0-9_]`. -/
def isWordChar (c : Char) : Bool :=
  (c ≥ 'a' && c ≤ 'z') || (c ≥ 'A' && c ≤ 'Z') || (c ≥ '0' && c ≤ '9') || c = '_'

/-- Test for the source's `IdentifierRegexp`, `/^[a-zA-Z_$][a-zA-Z0-9_$]*$/`:
a valid bare JavaScript identifier. -/
def isIdent (s : String) : Bool :=
  match s.toList with
  | [] => false
  | c :: cs =>
    (c.isAlpha || c = '_' || c = '$') &&
      cs.all (fun d => d.isAlphanum || d = '_' || d = '$')

/-- One word of a `pascal` split, capitalised: first letter upper-cased, the
rest lower-cased. -/
def capWord (w : List Char) : String :=
  match w with
  | [] => ""
  | c :: cs => String.mk (c.toUpper :: cs.map Char.toLower)

/-- Word splitter for the `pascal` model: words break at non-alphanumeric
characters (which are dropped) and at a lower-case-to-upper-case boundary. -/
def splitWordsAux : List Char → List Char → List (List Char)
  | [], acc => if acc.isEmpty then [] else [acc.reverse]
  | c :: cs, acc =>
    if !c.isAlphanum then
      if acc.isEmpty then splitWordsAux cs [] else acc.reverse :: splitWordsAux cs []
    else if c.isUpper && !acc.isEmpty && (acc.headD ' ').isLower then
      acc.reverse :: splitWordsAux cs [c]
    else
      splitWordsAux cs (c :: acc)

/-- Model of `pascal` from the external `case` npm package (an external
dependency of the repository, not repository code): split into words at
non-alphanumeric separators and camel-case boundaries, capitalise each word,
and concatenate. -/
def pascal (s : String) : String :=
  String.join ((splitWordsAux s.toList []).map capWord)

/-- The error thrown by `getRef` for an unrecognised pointer root. -/
def unsupportedRefMsg : String :=
  "This library only resolve $ref that are include into \x60#/components/*\x60 for now"

/-- Embedding of `getRef`: resolve a `$ref` pointer string to a type name.
Mirrors the source exactly: each branch tests `startsWith` on the prefix
*without* a trailing slash, then removes the first occurrence of the prefix
*with* the trailing slash and pascal-cases the remainder, appending a
kind-specific suffix. -/
def getRef (r : String) : Except String String :=
  if strStartsWith r "#/components/schemas" then
    .ok (pascal (replaceFirstOcc r "#/components/schemas/"))
  else if strStartsWith r "#/components/responses" then
    .ok (pascal (replaceFirstOcc r "#/components/responses/") ++ "Response")
  else if strStartsWith r "#/components/parameters" then
    .ok (pascal (replaceFirstOcc r "#/components/parameters/") ++ "Parameter")
  else if strStartsWith r "#/components/requestBodies" then
    .ok (pascal (replaceFirstOcc r "#/components/requestBodies/") ++ "RequestBody")
  else
    .error unsupportedRefMsg

/-- `Except.isOk` specialised to our error type. -/
def isOkE {α : Type} : Except String α → Bool
  | .ok _ => true
  | .error _ => false

/-- Embedding of an OpenAPI schema node (`SchemaObject | ReferenceObject`).
A node is either a reference (an object whose `$ref` field is set, which is
what `isReference` tests) or an inline schema.  Missing JavaScript fields are
`none`; `nullable` is a plain boolean since the code only tests its
truthiness.  `additionalProperties` is `Option (Option Schema)`: `none` for
absent *or* `false` (the code treats `false` exactly like absent: every use
is a truthiness test or an `=== true` test), `some none` for the literal
`true`, and `some (some s)` for a schema value.  `required` is a plain list
(the code reads it as `item.required || []`).  `discriminator` is the pair
(propertyName, mapping), the mapping itself optional. -/
inductive Schema where
  | ref (r : String)
  | inline
      (ty : Option String)
      (enumVals : Option (List String))
      (nullable : Bool)
      (items : Option Schema)
      (properties : Option (List (String × Schema)))
      (addProps : Option (Option Schema))
      (required : List String)
      (allOf : Option (List Schema))
      (oneOf : Option (List Schema))
      (descr : Option String)
      (discr : Option (String × Option (List (String × String))))

/-- JavaScript field read `item.type` (undefined on a reference object). -/
def Schema.typeF : Schema → Option String
  | .ref _ => none
  | .inline ty _ _ _ _ _ _ _ _ _ _ => ty

/-- JavaScript field read `item.enum`. -/
def Schema.enumF : Schema → Option (List String)
  | .ref _ => none
  | .inline _ e _ _ _ _ _ _ _ _ _ => e

/-- JavaScript field read `item.nullable` (truthiness). -/
def Schema.nullableF : Schema → Bool
  | .ref _ => false
  | .inline _ _ n _ _ _ _ _ _ _ _ => n

/-- JavaScript field read `item.items`. -/
def Schema.itemsF : Schema → Option Schema
  | .ref _ => none
  | .inline _ _ _ it _ _ _ _ _ _ _ => it

/-- JavaScript field read `item.properties`. -/
def Schema.propertiesF : Schema → Option (List (String × Schema))
  | .ref _ => none
  | .inline _ _ _ _ p _ _ _ _ _ _ => p

/-- JavaScript field read `item.additionalProperties`. -/
def Schema.addPropsF : Schema → Option (Option Schema)
  | .ref _ => none
  | .inline _ _ _ _ _ a _ _ _ _ _ => a

/-- JavaScript field read `item.required || []`. -/
def Schema.requiredF : Schema → List String
  | .ref _ => []
  | .inline _ _ _ _ _ _ rq _ _ _ _ => rq

/-- JavaScript field read `item.allOf`. -/
def Schema.allOfF : Schema → Option (List Schema)
  | .ref _ => none
  | .inline _ _ _ _ _ _ _ ao _ _ _ => ao

/-- JavaScript field read `item.oneOf`. -/
def Schema.oneOfF : Schema → Option (List Schema)
  | .ref _ => none
  | .inline _ _ _ _ _ _ _ _ oo _ _ => oo

/-- JavaScript field read `item.description`. -/
def Schema.descrF : Schema → Option String
  | .ref _ => none
  | .inline _ _ _ _ _ _ _ _ _ d _ => d

/-- JavaScript field read `item.discriminator`. -/
def Schema.discrF : Schema → Option (String × Option (List (String × String)))
  | .ref _ => none
  | .inline _ _ _ _ _ _ _ _ _ _ dc => dc

/-- Embedding of `isReference`: true exactly when the node carries a `$ref`. -/
def isReference : Schema → Bool
  | .ref _ => true
  | .inline _ _ _ _ _ _ _ _ _ _ _ => false

/-- Truthiness of an optional JavaScript string (absent and `""` are falsy). -/
def truthyStr : Option String → Bool
  | none => false
  | some s => s ≠ ""

/-- The value of an optional JavaScript string under `s || ""`. -/
def strOrEmpty : Option String → String
  | none => ""
  | some s => s

/-- Embedding of `formatDescription`: lay a description out as a doc
comment, indented by `tabSize` spaces; a missing or empty (falsy)
description yields the empty string. -/
def formatDescription (d : Option String) (tabSize : Nat) : String :=
  if truthyStr d then
    let s := strOrEmpty d
    let sp := String.mk (List.replicate tabSize ' ')
    "/**\n" ++
      joinSep "\n" ((splitLines s).map (fun i => sp ++ " * " ++ i)) ++
      "\n" ++ sp ++ " */\n" ++ sp
  else ""

/-- The string-literal union built for an `enum` in the string case of
`getScalar`: `"${item.enum.join(\x60" | "\x60)}"`. -/
def enumUnion (es : List String) : String :=
  "\"" ++ joinSep "\" | \"" es ++ "\""

/-- The numeric type tags of `getScalar`. -/
def numericTags : List String :=
  ["int32", "int64", "number", "integer", "long", "float", "double"]

/-- The string-family type tags of `getScalar`. -/
def stringTags : List String :=
  ["string", "byte", "binary", "date", "dateTime", "date-time", "password"]

/-- The error thrown by `getArray` when an array schema has no `items`. -/
def arrayErrMsg : String := "All arrays must have an \x60items\x60 key define"

/-- The free-form object type emitted by `getObject`. -/
def freeFormType : String := lb ++ "[key: string]: any" ++ rb

/-- lodash `isEmpty` on a schema value: true for an object with no own keys.
A reference object always carries `$ref`, hence is non-empty; an inline
schema is empty when every modelled field is absent. -/
def isEmptySchema : Schema → Bool
  | .ref _ => false
  | .inline ty e n it p a rq ao oo d dc =>
    ty.isNone && e.isNone && !n && it.isNone && p.isNone && a.isNone &&
      rq.isEmpty && ao.isNone && oo.isNone && d.isNone && dc.isNone

/-- The parenthesisation test of `getArray` on an `items` schema:
`!isReference(item.items) && (item.items.oneOf || item.items.allOf || item.items.enum)`. -/
def arrayElemWrap (el : Schema) : Bool :=
  !(isReference el) && (el.oneOfF.isSome || el.allOfF.isSome || el.enumF.isSome)

mutual

/-- Embedding of `resolveValue` on a present schema:
`isReference(schema) ? getRef(schema.$ref) : getScalar(schema)`. -/
def resolveValue : Schema → Except String String
  | .ref r => getRef r
  | s => getScalarS s

/-- Embedding of `getScalar` on a present (non-null) item: dispatch on the
`type` tag, appending a `" | null"` suffix when `nullable` is truthy.  The
`case "object"` arm of the source falls through to `default`, so both land
in `getObject`, as does any unrecognised tag and a missing tag. -/
def getScalarS (s : Schema) : Except String String :=
  let nullSuffix := if s.nullableF then " | null" else ""
  match s.typeF with
  | some t =>
    if numericTags.contains t then .ok ("number" ++ nullSuffix)
    else if t = "boolean" then .ok ("boolean" ++ nullSuffix)
    else if t = "array" then
      match getArray s with
      | .error e => .error e
      | .ok a => .ok (a ++ nullSuffix)
    else if stringTags.contains t then
      .ok ((match s.enumF with
            | some es => enumUnion es
            | none => "string") ++ nullSuffix)
    else
      match getObject s with
      | .error e => .error e
      | .ok o => .ok (o ++ nullSuffix)
  | none =>
    match getObject s with
    | .error e => .error e
    | .ok o => .ok (o ++ nullSuffix)

/-- Embedding of `getArray`: resolve `items`, wrapping the element type in
parentheses when the inline `items` schema carries `oneOf`, `allOf` or
`enum`; a missing `items` is a hard error. -/
def getArray : Schema → Except String String
  | .ref _ => .error arrayErrMsg
  | .inline _ _ _ none _ _ _ _ _ _ _ => .error arrayErrMsg
  | .inline _ _ _ (some it) _ _ _ _ _ _ _ =>
    if arrayElemWrap it then
      match resolveValue it with
      | .error e => .error e
      | .ok v => .ok ("(" ++ v ++ ")[]")
    else
      match resolveValue it with
      | .error e => .error e
      | .ok v => .ok (v ++ "[]")

/-- Embedding of `getObject`, in the source's order: reference, `allOf`
intersection, `oneOf` union, the bare empty object, the free-form object,
then the consolidation of `properties` and `additionalProperties`, and the
final permissive fallbacks. -/
def getObject : Schema → Except String String
  | .ref r => getRef r
  | .inline ty _ _ _ props aps rq ao oo _ _ =>
    match ao with
    | some l =>
      match resolveList l with
      | .error er => .error er
      | .ok ts => .ok (joinSep " & " ts)
    | none =>
    match oo with
    | some l =>
      match resolveList l with
      | .error er => .error er
      | .ok ts => .ok (joinSep " | " ts)
    | none =>
      if !truthyStr ty && props.isNone && aps.isNone then .ok (lb ++ rb)
      else if ty = some "object" && props.isNone &&
          (aps.isNone ||
            (match aps with
             | some none => true
             | some (some sc) => isEmptySchema sc
             | none => false)) then
        .ok freeFormType
      else
        match (match props with
               | some pl =>
                 match propLines pl rq with
                 | .error er => .error er
                 | .ok ls => .ok (lb ++ "\n" ++ joinSep "\n" ls)
               | none => .ok (lb ++ "\n") : Except String String) with
        | .error er => .error er
        | .ok out1 =>
          match (match aps with
                 | none => .ok out1
                 | some apv =>
                   match (match apv with
                          | none => .ok "any"
                          | some sc => resolveValue sc : Except String String) with
                   | .error er => .error er
                   | .ok tv =>
                     .ok (out1 ++ (if props.isSome then "\n" else "") ++
                       "  [key: string]: " ++ tv ++ ";") : Except String String) with
          | .error er => .error er
          | .ok out2 =>
            if props.isSome || aps.isSome then
              if out2 = lb ++ "\n" then .ok (lb ++ rb)
              else .ok (out2 ++ "\n" ++ rb)
            else
              .ok (if ty = some "object" then freeFormType else "any")

/-- The `Object.entries(item.properties).map(...)` body of `getObject`:
one output line per declared property, in order; the first resolution
error aborts, as a thrown exception would. -/
def propLines : List (String × Schema) → List String → Except String (List String)
  | [], _ => .ok []
  | (key, prop) :: rest, rq =>
    let doc := if isReference prop then "" else formatDescription prop.descrF 2
    let isRequired := rq.contains key
    let processedKey := if isIdent key then key else "\"" ++ key ++ "\""
    match resolveValue prop with
    | .error er => .error er
    | .ok v =>
      match propLines rest rq with
      | .error er => .error er
      | .ok ls =>
        .ok (("  " ++ doc ++ processedKey ++ (if isRequired then "" else "?") ++
          ": " ++ v ++ ";") :: ls)

/-- `list.map(resolveValue)` for the `allOf`/`oneOf` members, first error
aborting. -/
def resolveList : List Schema → Except String (List String)
  | [] => .ok []
  | x :: xs =>
    match resolveValue x with
    | .error er => .error er
    | .ok t =>
      match resolveList xs with
      | .error er => .error er
      | .ok ts => .ok (t :: ts)

end

/-- Embedding of `getScalar` at its public (possibly `null`/`undefined`)
interface: the `if (!item) return ""` guard, then the tag dispatch. -/
def getScalar : Option Schema → Except String String
  | none => .ok ""
  | some s => getScalarS s

/-- `resolveValue(x)` at call sites where `x` may be `undefined` (e.g.
`schema!`): `isReference(undefined)` is false, so this is `getScalar`. -/
def resolveValueOpt : Option Schema → Except String String
  | none => .ok ""
  | some s => resolveValue s

/-- An inline schema with every field absent, as a builder for examples. -/
def blankSchema : Schema :=
  .inline none none false none none none [] none none none none

/-- The inline `items` schema `\x7boneOf: [A, B]\x7d` of the array example,
with `A`/`B` references into `#/components/schemas`. -/
def oneOfItems : Schema :=
  .inline none none false none none none []
    none (some [.ref "#/components/schemas/A", .ref "#/components/schemas/B"]) none none

/-- An array schema whose `items` is `oneOfItems`. -/
def oneOfArraySchema : Schema :=
  .inline (some "array") none false (some oneOfItems) none none [] none none none none

/-- An array schema with no `items` key. -/
def itemlessArraySchema : Schema :=
  .inline (some "array") none false none none none [] none none none none

/-- Embedding of a `ResponseObject | ReferenceObject | RequestBodyObject`
value as consumed by `getResReqTypes`: either a reference, or an object with
an optional `content` mapping from content types to media objects, each
media object reduced to its optional `schema` (the only field read). -/
inductive ResLike where
  | ref (r : String)
  | resp (content : Option (List (String × Option Schema)))

/-- The content-type test of `getResReqTypes`:
`contentType.startsWith("application/json") || contentType.startsWith("application/octet-stream")`. -/
def isJsonLikeContentType (ct : String) : Bool :=
  strStartsWith ct "application/json" || strStartsWith ct "application/octet-stream"

/-- Resolution of a single member of `getResReqTypes`: a missing member is
`"void"`, a reference resolves through `getRef`, and an object with content
scans the content types in order for the first `application/json` /
`application/octet-stream` entry and resolves that entry's schema; no
content, or no matching content type, yields `"void"`. -/
def resolveResType : Option ResLike → Except String String
  | none => .ok "void"
  | some (.ref r) => getRef r
  | some (.resp content) =>
    match content with
    | some entries =>
      match entries.find? (fun e => isJsonLikeContentType e.1) with
      | some e => resolveValueOpt e.2
      | none => .ok "void"
    | none => .ok "void"

/-- The `responsesOrRequests.map(...)` of `getResReqTypes`, first thrown
error aborting. -/
def resolveResList : List (String × Option ResLike) → Except String (List String)
  | [] => .ok []
  | e :: rest =>
    match resolveResType e.2 with
    | .error er => .error er
    | .ok t =>
      match resolveResList rest with
      | .error er => .error er
      | .ok ts => .ok (t :: ts)

/-- Embedding of `getResReqTypes`: resolve each member, deduplicate keeping
first occurrences (lodash `uniq`), and join with `" | "`. -/
def getResReqTypes (l : List (String × Option ResLike)) : Except String String :=
  match resolveResList l with
  | .error er => .error er
  | .ok ts => .ok (joinSep " | " (uniqList ts))

/-- The `isOk` predicate of `generateRestfulComponent`: a status-code key
starting with `"2"`. -/
def isOkEntry (e : String × Option ResLike) : Bool := strStartsWith e.1 "2"

/-- The `isError` predicate of `generateRestfulComponent`: a status-code key
starting with `"4"` or `"5"`, or the literal `"default"`. -/
def isErrEntry (e : String × Option ResLike) : Bool :=
  strStartsWith e.1 "4" || strStartsWith e.1 "5" || e.1 == "default"

/-- JavaScript `expr || d` on a string-valued `Except`: replace an empty
(falsy) success value by the default. -/
def orDefaultIfEmpty (e : Except String String) (d : String) : Except String String :=
  match e with
  | .ok "" => .ok d
  | x => x

/-- Line 320 of the source:
`getResReqTypes(Object.entries(operation.responses).filter(isOk)) || "void"`. -/
def responseTypesOf (rs : List (String × Option ResLike)) : Except String String :=
  orDefaultIfEmpty (getResReqTypes (rs.filter isOkEntry)) "void"

/-- Line 321 of the source:
`getResReqTypes(Object.entries(operation.responses).filter(isError)) || "unknown"`. -/
def errorTypesOf (rs : List (String × Option ResLike)) : Except String String :=
  orDefaultIfEmpty (getResReqTypes (rs.filter isErrEntry)) "unknown"

/-- The responses mapping of the spec's worked example: a single `"200"`
entry whose `application/json` content references `#/components/schemas/Pet`. -/
def petResponses : List (String × Option ResLike) :=
  [("200", some (.resp (some [("application/json",
      some (.ref "#/components/schemas/Pet"))])))]

/-- Scanner for `getParamsInPath`, the repeated-`exec` loop of the sticky
regex `/\x7b(\w+)}/g`: outside a brace group, a `\x7b` opens one; inside,
word characters accumulate; a `}` after at least one word character captures
the group; any other character aborts the candidate (re-opening immediately
when that character is itself a `\x7b`, as the regex engine would retry
there). -/
def paramsScan : List Char → Option (List Char) → List String
  | [], _ => []
  | c :: cs, none =>
    if c == lbChar then paramsScan cs (some []) else paramsScan cs none
  | c :: cs, some acc =>
    if c == rbChar then
      if acc.isEmpty then paramsScan cs none
      else String.mk acc.reverse :: paramsScan cs none
    else if isWordChar c then paramsScan cs (some (c :: acc))
    else if c == lbChar then paramsScan cs (some [])
    else paramsScan cs none

/-- Embedding of `getParamsInPath`: every `\x7bword}` group in the path, in
order. -/
def getParamsInPath (path : String) : List String := paramsScan path.data none

/-- `route.replace(/\x7b/g, "$\x7b")` on the underlying characters. -/
def templChars : List Char → List Char
  | [] => []
  | c :: cs =>
    if c == lbChar then '$' :: lbChar :: templChars cs else c :: templChars cs

/-- Line 305 of the source: rewrite every `\x7b` to `$\x7b`
(`/pet/\x7bid\x7d` becomes `/pet/$\x7bid\x7d`). -/
def templRoute (route : String) : String := String.mk (templChars route.data)

/-- The trailing-parameter match `/\/\$\x7b(\w+)\x7d\/?$/` of the DELETE
rule: when the route ends in `/$\x7bword\x7d` (with an optional final
slash), return the route with that whole match removed together with the
captured word. -/
def stripLastParam (route : String) : Option (String × String) :=
  let rev := route.data.reverse
  let rev1 := match rev with
    | '/' :: rest => rest
    | l => l
  match rev1 with
  | c :: rest =>
    if c == rbChar then
      let wRev := rest.takeWhile isWordChar
      let rest2 := rest.dropWhile isWordChar
      match rest2 with
      | a :: b :: d :: tail =>
        if !wRev.isEmpty && a == lbChar && b == '$' && d == '/' then
          some (String.mk tail.reverse, String.mk wRev.reverse)
        else none
      | _ => none
    else none
  | [] => none

/-- Lines 307–313 of the source: under the DELETE verb, strip a trailing
route parameter (remembering its name); other verbs leave the route as is. -/
def routeAndLastParam (verb route1 : String) : String × Option String :=
  if verb == "delete" then
    match stripLastParam route1 with
    | some (r, w) => (r, some w)
    | none => (route1, none)
  else (route1, none)

/-- The route after template rewriting and the DELETE stripping, with the
stripped parameter name. -/
def routePieces (verb route : String) : String × Option String :=
  routeAndLastParam verb (templRoute route)

/-- Line 347 of the source: the path parameters of the processed route,
dropping (under DELETE) every parameter equal to the stripped trailing one. -/
def paramsInPathOf (verb route : String) : List String :=
  let rp := routePieces verb route
  (getParamsInPath rp.1).filter (fun p => !(verb == "delete" && some p == rp.2))

/-- The processed route together with its path-parameter list. -/
def routeAndParams (verb route : String) : String × List String :=
  ((routePieces verb route).1, paramsInPathOf verb route)

/-- Embedding of a `ParameterObject`: the fields the generator reads.  The
JavaScript field `in` is modelled as `location`. -/
structure ParamObj where
  name : String
  location : String
  required : Bool
  schema : Option Schema
  descr : Option String

/-- A `ParameterObject | ReferenceObject` list member. -/
inductive ParamOrRef where
  | ref (r : String)
  | pobj (p : ParamObj)

/-- The components tables of the spec document that the generator consults. -/
structure Components where
  schemas : List (String × Schema)
  responses : List (String × ResLike)
  parameters : List (String × ParamOrRef)
  requestBodies : List (String × ResLike)

/-- Key lookup in an association list (JavaScript property access). -/
def lookupAList {α : Type} (l : List (String × α)) (k : String) : Option α :=
  (l.find? (fun e => e.1 == k)).map (fun e => e.2)

/-- Lines 349–355 of the source: resolve one merged parameter.  A parameter
reference is looked up with lodash
`get(schemasComponents, ref.replace("#/components/","").replace("/","."))`;
for a pointer into `#/components/parameters/` that is the parameters table
keyed by everything after the prefix.  A pointer into any other kind (or a
failed lookup, or an absent components object) produces a value without an
`in` field, which the subsequent location grouping discards — modelled as
`none`. -/
def resolveParam (comps : Option Components) (pr : ParamOrRef) : Option ParamOrRef :=
  match pr with
  | .pobj p => some (.pobj p)
  | .ref r =>
    match comps with
    | none => none
    | some c =>
      if strStartsWith r "#/components/parameters/" then
        lookupAList c.parameters (String.mk (r.data.drop 24))
      else none

/-- The merged and reference-resolved parameter list (path-item-level
parameters first, then operation-level ones, as in the source spread). -/
def resolvedParamsOf (parameters : List ParamOrRef) (opParams : List ParamOrRef)
    (comps : Option Components) : List (Option ParamOrRef) :=
  (parameters ++ opParams).map (resolveParam comps)

/-- The lodash `groupBy(..., "in")` group for one location: parameters whose
`in` equals `loc`, in order; unresolved references (no `in` field) fall into
no location group. -/
def groupOf (loc : String) (l : List (Option ParamOrRef)) : List ParamObj :=
  l.filterMap (fun x =>
    match x with
    | some (.pobj p) => if p.location == loc then some p else none
    | _ => none)

/-- The error of lines 364–366: a route placeholder with no matching path
parameter. -/
def pathParamNotFoundMsg (p opId : String) : String :=
  "The path params " ++ p ++ " can\x27t be found in parameters (" ++ opId ++ ")"

/-- Lines 359–368 of the source: one entry of `paramsTypes` per route
placeholder, in order.  The `try/catch` around the block converts *any*
exception raised inside it — the failed destructuring when `find` returns
`undefined`, but also a resolver error on the found parameter's schema —
into the not-found error for that placeholder. -/
def paramsTypesList : List String → List ParamObj → String → Except String (List String)
  | [], _, _ => .ok []
  | p :: ps, pathParams, opId =>
    match pathParams.find? (fun i => i.name == p) with
    | none => .error (pathParamNotFoundMsg p opId)
    | some pr =>
      match resolveValueOpt pr.schema with
      | .error _ => .error (pathParamNotFoundMsg p opId)
      | .ok v =>
        match paramsTypesList ps pathParams opId with
        | .error er => .error er
        | .ok rest =>
          .ok ((pr.name ++ (if pr.required then "" else "?") ++ ": " ++ v) :: rest)

/-- Lines 370–377 of the source: one line of the query-parameter object type
per query parameter; resolver errors propagate (no `try/catch` here). -/
def queryLines : List ParamObj → Except String (List String)
  | [] => .ok []
  | p :: ps =>
    let processedName := if isIdent p.name then p.name else "\"" ++ p.name ++ "\""
    match resolveValueOpt p.schema with
    | .error er => .error er
    | .ok v =>
      match queryLines ps with
      | .error er => .error er
      | .ok rest =>
        .ok ((formatDescription p.descr 2 ++ processedName ++
          (if p.required then "" else "?") ++ ": " ++ v) :: rest)

/-- Lines 383–387 of the source: the operation description — summary and
description joined by a blank line when both are truthy, otherwise their
plain concatenation — laid out as a doc comment. -/
def operationDescription (sm de : Option String) : String :=
  formatDescription
    (some (if truthyStr sm && truthyStr de then
             strOrEmpty sm ++ "\n\n" ++ strOrEmpty de
           else strOrEmpty sm ++ strOrEmpty de)) 0

/-- Embedding of an `OperationObject`: the fields the generator reads. -/
structure OperationObj where
  operationId : Option String
  summary : Option String
  descr : Option String
  parameters : List ParamOrRef
  requestBody : Option ResLike
  responses : List (String × Option ResLike)

/-- The `typeNames` record of the descriptor. -/
structure TypeNames where
  response : String
  query : String
  body : String

/-- The Generated Component Descriptor (the `component` record returned by
`generateRestfulComponent`). -/
structure GenComponent where
  componentName : String
  verb : String
  route : String
  description : String
  typeNames : TypeNames
  errorTypes : String
  headerParams : List ParamObj
  paramsInPath : List String
  paramsTypes : String
  operation : OperationObj

/-- The full result of `generateRestfulComponent`: the emitted text, the
descriptor, and the operation-identifier list after the push (the source
mutates the caller's array). -/
structure GenResult where
  output : String
  component : GenComponent
  opIds : List String

/-- The duplicate-`operationId` error of line 301. -/
def dupMsg (opId : String) : String :=
  "\"" ++ opId ++ "\" is duplicated in your schema definition!"

/-- The missing-`operationId` error of line 292. -/
def missingOpIdMsg (verb route : String) : String :=
  "Every path must have a operationId - No operationId set for " ++ verb ++ " " ++ route

/-- The body of `generateRestfulComponent` after the operation identifier
has been established and checked (lines 305–436): route processing, type
resolution, parameter grouping, and output/descriptor assembly.  `newIds` is
the identifier list after the push. -/
def genMain (operation : OperationObj) (verb route : String)
    (newIds : List String) (opId : String)
    (parameters : List ParamOrRef) (comps : Option Components) :
    Except String GenResult :=
  let rp := routePieces verb route
  let componentName := pascal opId
  match responseTypesOf operation.responses with
  | .error e => .error e
  | .ok responseTypes =>
  match errorTypesOf operation.responses with
  | .error e => .error e
  | .ok errorTypes =>
  match getResReqTypes [("body", operation.requestBody)] with
  | .error e => .error e
  | .ok requestBodyTypes =>
  let needARequestBodyComponent := strContains requestBodyTypes lb
  let needAResponseComponent := strContains responseTypes lb
  let resolved := resolvedParamsOf parameters operation.parameters comps
  let queryParams := groupOf "query" resolved
  let pathParams := groupOf "path" resolved
  let headerParams := groupOf "header" resolved
  match paramsTypesList (paramsInPathOf verb route) pathParams opId with
  | .error e => .error e
  | .ok ptl =>
  let paramsTypes := joinSep ", " ptl
  match queryLines queryParams with
  | .error e => .error e
  | .ok ql =>
  let queryParamsType := joinSep ";\n  " ql
  let description := operationDescription operation.summary operation.descr
  let respName := componentName ++ "Response"
  let typeNames : TypeNames :=
    { response := if needAResponseComponent then respName else responseTypes
      query := if queryParamsType == "" then "any" else componentName ++ "QueryParams"
      body := if needARequestBodyComponent then componentName ++ "RequestBody"
              else if requestBodyTypes == "void" then "any" else requestBodyTypes }
  let output :=
    (if needAResponseComponent then
      "\n      export " ++
        (if strContains responseTypes "|" || strContains responseTypes "&" then
          "type " ++ respName ++ " ="
         else "interface " ++ respName) ++ " " ++ responseTypes ++ "\n    "
     else "") ++
    (if queryParamsType == "" then ""
     else
      "\n      export interface " ++ componentName ++ "QueryParams " ++ lb ++
        "\n        " ++ queryParamsType ++ ";\n      " ++ rb ++ "\n    ") ++
    (if needARequestBodyComponent then
      "\n      export interface " ++ componentName ++ "RequestBody " ++
        requestBodyTypes ++ "\n    "
     else "")
  .ok {
    output := output
    component := {
      componentName := componentName
      verb := verb
      route := rp.1
      description := description
      typeNames := typeNames
      errorTypes := errorTypes
      headerParams := headerParams
      paramsInPath := paramsInPathOf verb route
      paramsTypes := paramsTypes
      operation := { operation with operationId := some opId } }
    opIds := newIds }

/-- Embedding of `generateRestfulComponent`: establish the operation
identifier (explicit, or produced by the optional generator, else a fatal
error), reject a duplicate identifier, push it, and run the main body. -/
def generateRestfulComponent (operation : OperationObj) (verb route : String)
    (operationIds : List String) (parameters : List ParamOrRef)
    (comps : Option Components)
    (customOperationNameGenerator : Option (String → String → String)) :
    Except String GenResult :=
  match (match operation.operationId with
         | some i => .ok i
         | none =>
           match customOperationNameGenerator with
           | none => .error (missingOpIdMsg verb route)
           | some g => .ok (g verb route) : Except String String) with
  | .error e => .error e
  | .ok opId =>
    if operationIds.contains opId then .error (dupMsg opId)
    else genMain operation verb route (operationIds ++ [opId]) opId parameters comps

/-- A minimal operation with explicit identifier `getPet`. -/
def opGetPet : OperationObj :=
  { operationId := some "getPet", summary := none, descr := none,
    parameters := [], requestBody := none, responses := [] }

/-- A minimal operation with explicit identifier `GetPet`, which
pascal-normalises to the same name as `getPet`. -/
def opGetPetUpper : OperationObj :=
  { operationId := some "GetPet", summary := none, descr := none,
    parameters := [], requestBody := none, responses := [] }

/-- A minimal GET operation on a parameterised route, with no declared
parameters at all. -/
def opPetDel : OperationObj :=
  { operationId := some "petDel", summary := none, descr := none,
    parameters := [], requestBody := none, responses := [] }

/-- The leaf step of the lodash `set` call in `resolveDiscriminator`:
overwrite a schema value's `enum`.  On a reference node the JavaScript `set`
adds an `enum` field next to `$ref`; every consumer tests `$ref` first
(`isReference`), so the added field is inert — modelled as the unchanged
reference. -/
def Schema.withEnum : Schema → List String → Schema
  | .ref r, _ => .ref r
  | .inline ty _ n it p a rq ao oo d dc, es =>
    .inline ty (some es) n it p a rq ao oo d dc

/-- The bare `\x7benum: es\x7d` object that lodash `set` creates when the
property named by the discriminator is missing. -/
def freshEnumSchema (es : List String) : Schema :=
  .inline none (some es) false none none none [] none none none none

/-- The bare `\x7bproperties: \x7bpn: \x7benum: [nm]\x7d\x7d\x7d` object
that lodash `set` creates when the whole target schema is missing. -/
def freshTargetSchema (pn nm : String) : Schema :=
  .inline none none false none (some [(pn, freshEnumSchema [nm])]) none []
    none none none none

/-- `set` on a properties table: overwrite the entry's `enum` when the key
exists, else add a fresh `\x7benum\x7d` object (JavaScript property
insertion appends). -/
def setPropEnum : List (String × Schema) → String → List String → List (String × Schema)
  | [], pn, es => [(pn, freshEnumSchema es)]
  | (k, v) :: rest, pn, es =>
    if k == pn then (k, v.withEnum es) :: rest
    else (k, v) :: setPropEnum rest pn es

/-- `set` of `properties.pn.enum` on one schema: descend into `properties`
(creating it when missing).  On a reference node the JavaScript `set` adds a
`properties` field next to `$ref`, inert for every consumer — modelled as
the unchanged reference. -/
def Schema.setEnumAt : Schema → String → List String → Schema
  | .ref r, _, _ => .ref r
  | .inline ty e n it props a rq ao oo d dc, pn, es =>
    match props with
    | some pl => .inline ty e n it (some (setPropEnum pl pn es)) a rq ao oo d dc
    | none => .inline ty e n it (some [(pn, freshEnumSchema es)]) a rq ao oo d dc

/-- `set(specs, "components.schemas." ++ target ++ ".properties." ++ pn ++
".enum", [nm])` on the schemas table (a target name containing a dot, which
lodash would split into a deeper path, is not modelled). -/
def setSchemaEnum : List (String × Schema) → String → String → String → List (String × Schema)
  | [], target, pn, nm => [(target, freshTargetSchema pn nm)]
  | (k, v) :: rest, target, pn, nm =>
    if k == target then (k, v.setEnumAt pn [nm]) :: rest
    else (k, v) :: setSchemaEnum rest target pn nm

/-- The error thrown for a discriminator mapping outside the schemas kind. -/
def discrErrMsg : String :=
  "Discriminator mapping outside of \x60#/components/schemas\x60 is not supported"

/-- One `\x7bname, ref\x7d` pair of a discriminator mapping: the ref must
start with `#/components/schemas/` (else fatal), and the target named by the
remainder (`ref.slice(21)`) gets `properties[pn].enum` overwritten with the
single-element list `[name]`. -/
def applyMappingPair (pn : String) (table : List (String × Schema))
    (pair : String × String) : Except String (List (String × Schema)) :=
  if !(strStartsWith pair.2 "#/components/schemas/") then .error discrErrMsg
  else .ok (setSchemaEnum table (String.mk (pair.2.data.drop 21)) pn pair.1)

/-- All pairs of one discriminator mapping, in entry order. -/
def applyMapping (pn : String) : List (String × Schema) → List (String × String) →
    Except String (List (String × Schema))
  | table, [] => .ok table
  | table, pair :: rest =>
    match applyMappingPair pn table pair with
    | .error e => .error e
    | .ok t2 => applyMapping pn t2 rest

/-- The per-schema step of `resolveDiscriminator`: a reference, a schema
without `discriminator`, or one whose discriminator has no `mapping`, is
skipped; otherwise every mapping pair is applied. -/
def applySchemaDiscr (table : List (String × Schema)) (sch : Schema) :
    Except String (List (String × Schema)) :=
  match sch.discrF with
  | none => .ok table
  | some (pn, mapping) =>
    match mapping with
    | none => .ok table
    | some pairs => applyMapping pn table pairs

/-- Iteration of `resolveDiscriminator` over the snapshot of schema values,
threading the mutated table. -/
def resolveDiscriminatorAux : List (String × Schema) → List (String × Schema) →
    Except String (List (String × Schema))
  | table, [] => .ok table
  | table, (_, sch) :: rest =>
    match applySchemaDiscr table sch with
    | .error e => .error e
    | .ok t2 => resolveDiscriminatorAux t2 rest

/-- Embedding of `resolveDiscriminator` on the schemas table.  The source
iterates `Object.values` of the original table while `set` mutates leaf
`enum` fields of the shared objects in place; those mutations never touch a
`discriminator` field, so reading each schema's discriminator from the
original snapshot while threading the table is equivalent. -/
def resolveDiscriminator (schemas : List (String × Schema)) :
    Except String (List (String × Schema)) :=
  resolveDiscriminatorAux schemas schemas

/-- The discriminant property's `enum` of a schema: `properties[pn].enum`. -/
def propEnumOf (s : Schema) (pn : String) : Option (List String) :=
  match s.propertiesF with
  | some props =>
    match lookupAList props pn with
    | some p => p.enumF
    | none => none
  | none => none

/-- `table[target].properties[pn].enum`. -/
def schemaEnumAt (table : List (String × Schema)) (target pn : String) :
    Option (List String) :=
  match lookupAList table target with
  | some s => propEnumOf s pn
  | none => none

/-- The `Dog` schema of the spec's discriminator example. -/
def dogSchema : Schema :=
  .inline (some "object") none false none
    (some [("petType",
      .inline (some "string") none false none none none [] none none none none)])
    none [] none none none none

/-- The `Pet` schema of the spec's discriminator example, carrying
`discriminator: \x7bpropertyName: "petType", mapping: \x7bdog:
"#/components/schemas/Dog"\x7d\x7d`. -/
def petSchema : Schema :=
  .inline (some "object") none false none none none [] none none none
    (some ("petType", some [("dog", "#/components/schemas/Dog")]))

/-- The schemas table of the discriminator example. -/
def petDogTable : List (String × Schema) := [("Pet", petSchema), ("Dog", dogSchema)]

/-- Embedding of `generateInterface`: doc comment, `export interface`, the
pascal-cased name, and the `getScalar` of the schema. -/
def generateInterface (name : String) (schema : Schema) : Except String String :=
  match getScalar (some schema) with
  | .error e => .error e
  | .ok scalar =>
    .ok (formatDescription schema.descrF 0 ++ "export interface " ++
      pascal name ++ " " ++ scalar)

/-- The type-alias branch of `generateSchemasDefinition`: doc comment (a
reference entry has none), `export type Name = <resolved>;`. -/
def typeAliasEntry (name : String) (schema : Schema) : Except String String :=
  match resolveValue schema with
  | .error e => .error e
  | .ok v =>
    .ok (formatDescription (if isReference schema then none else schema.descrF) 0 ++
      "export type " ++ pascal name ++ " = " ++ v ++ ";")

/-- The interface-vs-alias condition of `generateSchemasDefinition`, exactly
as the source writes it (including the duplicated `!isReference` test). -/
def schemaEntryCond (schema : Schema) : Bool :=
  !(isReference schema) &&
    (!truthyStr schema.typeF || schema.typeF == some "object") &&
    schema.allOfF.isNone && schema.oneOfF.isNone &&
    !(isReference schema) && !schema.nullableF

/-- One entry of `generateSchemasDefinition`. -/
def schemaEntry (name : String) (schema : Schema) : Except String String :=
  if schemaEntryCond schema then generateInterface name schema
  else typeAliasEntry name schema

/-- All entries of `generateSchemasDefinition`, first error aborting. -/
def schemaEntriesList : List (String × Schema) → Except String (List String)
  | [] => .ok []
  | (k, v) :: rest =>
    match schemaEntry k v with
    | .error e => .error e
    | .ok s =>
      match schemaEntriesList rest with
      | .error e => .error e
      | .ok l => .ok (s :: l)

/-- Embedding of `generateSchemasDefinition`: empty table yields the empty
string; otherwise the entries joined with blank lines plus a final newline. -/
def generateSchemasDefinition (schemas : List (String × Schema)) :
    Except String String :=
  if schemas.isEmpty then .ok ""
  else
    match schemaEntriesList schemas with
    | .error e => .error e
    | .ok l => .ok (joinSep "\n\n" l ++ "\n")

/-- The interface condition as the claim words it: an inline schema with no
type tag or type `object`, no `allOf`, no `oneOf`, and `nullable` unset. -/
def interfaceConditionSpec (s : Schema) : Bool :=
  match s with
  | .ref _ => false
  | .inline ty _ nul _ _ _ _ ao oo _ _ =>
    (ty.isNone || ty == some "object") && ao.isNone && oo.isNone && !nul

/-- A plain object schema (one inline string property), for the C6 witness. -/
def catSchema : Schema :=
  .inline none none false none
    (some [("name",
      .inline (some "string") none false none none none [] none none none none)])
    none [] none none none none

-- ===================================================================
-- Theorems
-- ===================================================================

/-- C10: `getScalar` on a `null`/`undefined` input returns the empty string —
not `"any"`, not `"void"`, and not an error — so a missing schema at the
public resolver interface silently contributes an empty type expression. -/
theorem c10_getScalar_null_is_empty_string :
    getScalar none = .ok "" ∧ isOkE (getScalar none) = true ∧
      "" ≠ "any" ∧ "" ≠ "void" :=
  ⟨rfl, rfl, by decide, by decide⟩

/-- C2 counterexample: the pointer `"#/components/schemasX"` is not rooted at
any of the four recognised kinds (it does not start with
`"#/components/schemas/"`), yet `getRef` does **not** throw: the source tests
`startsWith` against the prefix *without* its trailing slash, accepts the
pointer, finds no occurrence of the slashed prefix to strip, and pascal-cases
the whole pointer. -/
theorem c2_counterexample :
    isOkE (getRef "#/components/schemasX") = true ∧
      getRef "#/components/schemasX" = .ok (pascal "#/components/schemasX") ∧
      ¬ (strStartsWith "#/components/schemasX" "#/components/schemas/" = true) :=
  ⟨rfl, rfl, by decide⟩

/-- C2 amended: `getRef` tests the four kind prefixes *without* their
trailing slash, in source order; on a match it removes the first occurrence
of the slashed prefix (for a pointer of the form `#/components/<kind>/rest`
this strips exactly the prefix), pascal-cases the remainder, and appends the
kind-specific suffix (schemas: none, responses: `Response`, parameters:
`Parameter`, requestBodies: `RequestBody`); only a pointer starting with none
of the four slashless prefixes throws the unsupported-reference error. -/
theorem c2_amended (r : String) :
    (strStartsWith r "#/components/schemas" →
       getRef r = .ok (pascal (replaceFirstOcc r "#/components/schemas/")))
  ∧ (¬ strStartsWith r "#/components/schemas" →
     strStartsWith r "#/components/responses" →
       getRef r = .ok (pascal (replaceFirstOcc r "#/components/responses/") ++ "Response"))
  ∧ (¬ strStartsWith r "#/components/schemas" →
     ¬ strStartsWith r "#/components/responses" →
     strStartsWith r "#/components/parameters" →
       getRef r = .ok (pascal (replaceFirstOcc r "#/components/parameters/") ++ "Parameter"))
  ∧ (¬ strStartsWith r "#/components/schemas" →
     ¬ strStartsWith r "#/components/responses" →
     ¬ strStartsWith r "#/components/parameters" →
     strStartsWith r "#/components/requestBodies" →
       getRef r = .ok (pascal (replaceFirstOcc r "#/components/requestBodies/") ++ "RequestBody"))
  ∧ (¬ strStartsWith r "#/components/schemas" →
     ¬ strStartsWith r "#/components/responses" →
     ¬ strStartsWith r "#/components/parameters" →
     ¬ strStartsWith r "#/components/requestBodies" →
       getRef r = .error unsupportedRefMsg) := by
  refine ⟨fun h1 => ?_, fun h1 h2 => ?_, fun h1 h2 h3 => ?_,
    fun h1 h2 h3 h4 => ?_, fun h1 h2 h3 h4 => ?_⟩ <;>
    simp_all [getRef]

/-- C2 witness: the amended claim at the pointer
`#/components/responses/NotFound`. -/
theorem c2_amended_witness :
    getRef "#/components/responses/NotFound" =
      .ok (pascal (replaceFirstOcc "#/components/responses/NotFound"
        "#/components/responses/") ++ "Response") :=
  (c2_amended "#/components/responses/NotFound").2.1 (by decide) (by decide)

/-- C7: array resolution of an `items` schema that is inline and carries
`oneOf`, `allOf` or `enum` wraps the recursively resolved element type in
parentheses before appending the array suffix; any other `items` value (a
reference, or an inline schema with none of those three fields) gets the
array suffix without parentheses.  In particular the example
`items \x7boneOf: [A, B]\x7d` resolves to `(A | B)[]`. -/
theorem c7_array_parenthesisation (s el : Schema) (h : s.itemsF = some el) :
    (arrayElemWrap el = true →
       getArray s = (resolveValue el).map (fun v => "(" ++ v ++ ")[]"))
  ∧ (arrayElemWrap el = false →
       getArray s = (resolveValue el).map (fun v => v ++ "[]"))
  ∧ getArray oneOfArraySchema = .ok "(A | B)[]" := by
  refine ⟨fun hw => ?_, fun hw => ?_, ?_⟩
  · cases s with
    | ref r => simp [Schema.itemsF] at h
    | inline ty e n it p a rq ao oo d dc =>
      simp only [Schema.itemsF] at h
      subst h
      simp only [getArray, hw, if_true]
      cases resolveValue el <;> simp [Except.map]
  · cases s with
    | ref r => simp [Schema.itemsF] at h
    | inline ty e n it p a rq ao oo d dc =>
      simp only [Schema.itemsF] at h
      subst h
      simp only [getArray, hw]
      cases resolveValue el <;> simp [Except.map]
  · simp only [oneOfArraySchema, oneOfItems, getArray, resolveValue, getScalarS,
      getObject, resolveList, getRef]
    rfl

/-- C7 witness: the theorem applied to the array schema whose `items`
carries `oneOf: [A, B]`, discharging the wrap condition. -/
theorem c7_array_parenthesisation_witness :
    getArray oneOfArraySchema =
      (resolveValue oneOfItems).map (fun v => "(" ++ v ++ ")[]") :=
  (c7_array_parenthesisation oneOfArraySchema oneOfItems rfl).1 (by decide)

/-- C9: a schema node with `type: "array"` and no `items` makes `getArray`
(and hence `getScalar`, which appends only the nullability suffix to the
`getArray` result) throw the hard missing-`items` error rather than fall
back to a permissive type; when `items` is present, `getArray` delegates to
the recursive resolution of the element type instead of raising this error
itself. -/
theorem c9_array_requires_items (s : Schema) :
    (s.itemsF = none → getArray s = .error arrayErrMsg)
  ∧ (∀ el, s.itemsF = some el →
       getArray s = (resolveValue el).map
         (fun v => if arrayElemWrap el then "(" ++ v ++ ")[]" else v ++ "[]"))
  ∧ (s.typeF = some "array" →
       getScalarS s = (getArray s).map
         (fun a => a ++ (if s.nullableF then " | null" else ""))) := by
  refine ⟨fun h => ?_, fun el h => ?_, fun h => ?_⟩
  · cases s with
    | ref r => simp [getArray]
    | inline ty e n it p a rq ao oo d dc =>
      simp only [Schema.itemsF] at h
      subst h
      simp [getArray]
  · cases s with
    | ref r => simp [Schema.itemsF] at h
    | inline ty e n it p a rq ao oo d dc =>
      simp only [Schema.itemsF] at h
      subst h
      simp only [getArray]
      cases hw : arrayElemWrap el <;> cases resolveValue el <;> simp [Except.map]
  · cases s with
    | ref r => simp [Schema.typeF] at h
    | inline ty e n it p a rq ao oo d dc =>
      simp only [Schema.typeF] at h
      subst h
      simp only [getScalarS, Schema.typeF, Schema.nullableF]
      norm_num [numericTags, stringTags]
      cases getArray (Schema.inline (some "array") e n it p a rq ao oo d dc) <;>
        simp [Except.map]

/-- C9 witness: an array schema with no `items` makes `getScalar` fail with
the missing-`items` error. -/
theorem c9_array_requires_items_witness :
    getScalarS itemlessArraySchema = .error arrayErrMsg := by
  have h := c9_array_requires_items itemlessArraySchema
  rw [h.2.2 rfl, h.1 rfl]
  rfl

/-- Helper: `expr || default` on a non-empty string result is the string
itself. -/
theorem orDefaultIfEmpty_ok_ne (s d : String) (h : s ≠ "") :
    orDefaultIfEmpty (.ok s) d = .ok s := by
  unfold orDefaultIfEmpty
  split
  · next heq =>
    cases heq
    exact absurd rfl h
  · rfl

/-- C1: the responses mapping is partitioned into the success group (keys
starting with `"2"`) and the error group (keys starting with `"4"` or `"5"`
or equal to `"default"`); a plain (non-reference) group member is resolved
by scanning its content entries for the first content type starting with
`application/json` or `application/octet-stream` and resolving that entry's
schema, an unmatched member resolving to `"void"`; the resolved member types
are deduplicated (first occurrences kept) and joined with `" | "`; an empty
success group yields `"void"` and an empty error group yields `"unknown"`. -/
theorem c1_response_partition_and_union
    (responses : List (String × Option ResLike))
    (content : List (String × Option Schema))
    (ts es : List String)
    (hm : resolveResList (responses.filter isOkEntry) = .ok ts)
    (hme : resolveResList (responses.filter isErrEntry) = .ok es) :
    (responses.filter isOkEntry =
       responses.filter (fun e => strStartsWith e.1 "2"))
  ∧ (responses.filter isErrEntry =
       responses.filter (fun e =>
         strStartsWith e.1 "4" || strStartsWith e.1 "5" || e.1 == "default"))
  ∧ (resolveResType (some (.resp (some content))) =
       match content.find? (fun e => isJsonLikeContentType e.1) with
       | some e => resolveValueOpt e.2
       | none => .ok "void")
  ∧ (responses.filter isOkEntry = [] → responseTypesOf responses = .ok "void")
  ∧ (responses.filter isErrEntry = [] → errorTypesOf responses = .ok "unknown")
  ∧ (joinSep " | " (uniqList ts) ≠ "" →
       responseTypesOf responses = .ok (joinSep " | " (uniqList ts)))
  ∧ (joinSep " | " (uniqList es) ≠ "" →
       errorTypesOf responses = .ok (joinSep " | " (uniqList es))) := by
  refine ⟨rfl, rfl, rfl, fun h => ?_, fun h => ?_, fun hne => ?_, fun hne => ?_⟩
  · simp [responseTypesOf, getResReqTypes, h, resolveResList, uniqList, uniqAux,
      joinSep, orDefaultIfEmpty]
  · simp [errorTypesOf, getResReqTypes, h, resolveResList, uniqList, uniqAux,
      joinSep, orDefaultIfEmpty]
  · simp only [responseTypesOf, getResReqTypes, hm]
    exact orDefaultIfEmpty_ok_ne _ _ hne
  · simp only [errorTypesOf, getResReqTypes, hme]
    exact orDefaultIfEmpty_ok_ne _ _ hne

/-- Helper: the main body never touches the pushed identifier list, so a
successful run returns exactly the list it was given. -/
theorem genMain_opIds (operation : OperationObj) (verb route : String)
    (newIds : List String) (opId : String) (parameters : List ParamOrRef)
    (comps : Option Components) (r : GenResult)
    (h : genMain operation verb route newIds opId parameters comps = .ok r) :
    r.opIds = newIds := by
  simp only [genMain] at h
  repeat' split at h
  all_goals first
    | exact (Except.noConfusion h)
    | (injection h with h2; rw [← h2])

/-- C3 counterexample: the identifiers `getPet` and `GetPet` are equal after
PascalCase normalisation, yet synthesising the second operation after the
first (whose run pushed `getPet` onto the identifier list) succeeds — the
duplication check compares raw identifiers, not normalised ones. -/
theorem c3_counterexample :
    pascal "getPet" = pascal "GetPet"
  ∧ (generateRestfulComponent opGetPet "get" "/pet" [] [] none none).map
      GenResult.opIds = .ok ["getPet"]
  ∧ isOkE (generateRestfulComponent opGetPetUpper "get" "/pet2" ["getPet"] []
      none none) = true :=
  ⟨rfl, rfl, rfl⟩

/-- C3 amended: for two operations whose *verbatim* operation identifiers
are equal, synthesising the second after a successful run of the first fails
with the duplication error (and hence produces no output). -/
theorem c3_amended (op1 op2 : OperationObj) (verb1 route1 verb2 route2 : String)
    (ids : List String) (ps1 ps2 : List ParamOrRef)
    (co1 co2 : Option Components)
    (g1 g2 : Option (String → String → String)) (i : String) (r : GenResult)
    (h1 : op1.operationId = some i) (h2 : op2.operationId = some i)
    (hrun : generateRestfulComponent op1 verb1 route1 ids ps1 co1 g1 = .ok r) :
    generateRestfulComponent op2 verb2 route2 r.opIds ps2 co2 g2 =
      .error (dupMsg i) := by
  unfold generateRestfulComponent at hrun
  rw [h1] at hrun
  by_cases hc : ids.contains i = true
  · simp only [hc, if_true] at hrun
    exact (Except.noConfusion hrun)
  · simp only [hc, if_false] at hrun
    -- hold of the pushed identifier list
    have hids : r.opIds = ids ++ [i] :=
      genMain_opIds op1 verb1 route1 (ids ++ [i]) i ps1 co1 r hrun
    unfold generateRestfulComponent
    rw [h2, hids]
    have : (ids ++ [i]).contains i = true := by
      simp [List.contains_eq_any_beq]
    simp [this]

/-- C3 witness: the amended claim at two concrete operations sharing the
explicit identifier `getPet`. -/
theorem c3_amended_witness :
    (match generateRestfulComponent opGetPet "get" "/pet" [] [] none none with
     | .ok r =>
       generateRestfulComponent opGetPet "get" "/pet" r.opIds [] none none =
         .error (dupMsg "getPet")
     | .error _ => False) := by
  cases hx : generateRestfulComponent opGetPet "get" "/pet" [] [] none none with
  | ok r =>
    exact c3_amended opGetPet opGetPet "get" "/pet" "get" "/pet" [] [] [] none
      none none none "getPet" r rfl rfl hx
  | error e =>
    have hok : isOkE (generateRestfulComponent opGetPet "get" "/pet" [] [] none
      none) = true := rfl
    rw [hx] at hok
    exact (Bool.noConfusion hok)

/-- C4 counterexample: a DELETE route whose final placeholder shares its
name with an earlier placeholder.  The claim predicts that the earlier
placeholder remains (path-parameter list `["id"]`), but the code filters by
*name* and drops the earlier occurrence too, leaving an empty list. -/
theorem c4_counterexample :
    routeAndParams "delete"
        ("/a/" ++ lb ++ "id" ++ rb ++ "/b/" ++ lb ++ "id" ++ rb) =
      ("/a/$" ++ lb ++ "id" ++ rb ++ "/b", ([] : List String))
  ∧ ([] : List String) ≠ ["id"] :=
  ⟨rfl, by decide⟩

/-- C4 amended: under the DELETE verb, when the processed route ends in a
placeholder, that placeholder is stripped from the route and *every* path
parameter with the stripped name is excluded from the path-parameter list;
earlier placeholders with a different name remain.  In particular DELETE on
`/pet/\x7bid\x7d` yields route `/pet` with no path parameters, and DELETE on
`/pet/\x7bid\x7d/tag/\x7btagId\x7d` yields route `/pet/$\x7bid\x7d/tag` with
path parameters `["id"]`. -/
theorem c4_amended (route stripped w : String)
    (h : stripLastParam (templRoute route) = some (stripped, w)) :
    routeAndParams "delete" route =
      (stripped, (getParamsInPath stripped).filter (fun p => !(p == w)))
  ∧ routeAndParams "delete" ("/pet/" ++ lb ++ "id" ++ rb) = ("/pet", [])
  ∧ routeAndParams "delete"
        ("/pet/" ++ lb ++ "id" ++ rb ++ "/tag/" ++ lb ++ "tagId" ++ rb) =
      ("/pet/$" ++ lb ++ "id" ++ rb ++ "/tag", ["id"]) := by
  refine ⟨?_, rfl, rfl⟩
  simp [routeAndParams, paramsInPathOf, routePieces, routeAndLastParam, h]

/-- C4 witness: the amended claim at the route
`/pet/\x7bid\x7d/tag/\x7btagId\x7d`. -/
theorem c4_amended_witness :
    routeAndParams "delete"
        ("/pet/" ++ lb ++ "id" ++ rb ++ "/tag/" ++ lb ++ "tagId" ++ rb) =
      ("/pet/$" ++ lb ++ "id" ++ rb ++ "/tag",
        (getParamsInPath ("/pet/$" ++ lb ++ "id" ++ rb ++ "/tag")).filter
          (fun p => !(p == "tagId"))) :=
  (c4_amended ("/pet/" ++ lb ++ "id" ++ rb ++ "/tag/" ++ lb ++ "tagId" ++ rb)
    ("/pet/$" ++ lb ++ "id" ++ rb ++ "/tag") "tagId" rfl).1

/-- Helper: with every earlier placeholder matched (and resolvable), the
first unmatched placeholder makes the `paramsTypes` construction fail with
the not-found error naming it. -/
theorem paramsTypesList_first_missing (pre : List String) (p : String)
    (rest : List String) (pathParams : List ParamObj) (opId : String)
    (hpre : ∀ q ∈ pre, ∃ pr, pathParams.find? (fun x => x.name == q) = some pr ∧
        isOkE (resolveValueOpt pr.schema) = true)
    (hp : pathParams.find? (fun x => x.name == p) = none) :
    paramsTypesList (pre ++ p :: rest) pathParams opId =
      .error (pathParamNotFoundMsg p opId) := by
  induction pre with
  | nil => simp only [List.nil_append, paramsTypesList, hp]
  | cons q pre ih =>
    obtain ⟨pr, hfind, hok⟩ := hpre q (by simp)
    have hrest := ih (fun x hx => hpre x (by simp [hx]))
    simp only [List.cons_append, paramsTypesList, hfind]
    cases hv : resolveValueOpt pr.schema with
    | error e => rw [hv] at hok; exact (Bool.noConfusion hok)
    | ok v => simp [hrest]

/-- Helper: a successful `paramsTypes` construction implies every
placeholder has a matching path parameter. -/
theorem paramsTypesList_ok_names (pip : List String) (pathParams : List ParamObj)
    (opId : String) (l : List String)
    (h : paramsTypesList pip pathParams opId = .ok l) :
    ∀ q ∈ pip, ∃ pr ∈ pathParams, pr.name = q := by
  induction pip generalizing l with
  | nil => intro q hq; exact absurd hq (List.not_mem_nil q)
  | cons p ps ih =>
    intro q hq
    simp only [paramsTypesList] at h
    cases hf : pathParams.find? (fun x => x.name == p) with
    | none => rw [hf] at h; exact Except.noConfusion h
    | some pr =>
      simp only [hf] at h
      cases hv : resolveValueOpt pr.schema with
      | error e => simp only [hv] at h; exact Except.noConfusion h
      | ok v =>
        simp only [hv] at h
        cases hr : paramsTypesList ps pathParams opId with
        | error e => simp only [hr] at h; exact Except.noConfusion h
        | ok l2 =>
          rcases List.mem_cons.mp hq with rfl | hq2
          · refine ⟨pr, List.mem_of_find?_eq_some hf, ?_⟩
            have := List.find?_some hf
            simpa using this
          · exact ih l2 hr q hq2

/-- Helper: when the earlier fallible steps succeed and the `paramsTypes`
construction fails, the main body fails with that error. -/
theorem genMain_params_error (operation : OperationObj) (verb route : String)
    (newIds : List String) (opId : String) (parameters : List ParamOrRef)
    (comps : Option Components) (a b c m : String)
    (hra : responseTypesOf operation.responses = .ok a)
    (hrb : errorTypesOf operation.responses = .ok b)
    (hrc : getResReqTypes [("body", operation.requestBody)] = .ok c)
    (hpt : paramsTypesList (paramsInPathOf verb route)
        (groupOf "path" (resolvedParamsOf parameters operation.parameters comps))
        opId = .error m) :
    genMain operation verb route newIds opId parameters comps = .error m := by
  simp only [genMain, hra, hrb, hrc, hpt]

/-- Helper: a successful main body implies the `paramsTypes` construction
succeeded. -/
theorem genMain_ok_paramsTypes (operation : OperationObj) (verb route : String)
    (newIds : List String) (opId : String) (parameters : List ParamOrRef)
    (comps : Option Components) (r : GenResult)
    (h : genMain operation verb route newIds opId parameters comps = .ok r) :
    ∃ l, paramsTypesList (paramsInPathOf verb route)
        (groupOf "path" (resolvedParamsOf parameters operation.parameters comps))
        opId = .ok l := by
  simp only [genMain] at h
  repeat' split at h
  all_goals first
    | exact (Except.noConfusion h)
    | exact ⟨_, by assumption⟩

/-- C8: a surviving route placeholder must have a matching path-location
parameter among the merged, reference-resolved parameters: if the first
unmatched placeholder is `p` (and the earlier fallible steps succeed),
synthesis fails with the not-found error naming `p`; and a successful
synthesis implies every placeholder has a matching path parameter. -/
theorem c8_path_param_matching
    (operation : OperationObj) (verb route : String) (ids : List String)
    (parameters : List ParamOrRef) (comps : Option Components)
    (g : Option (String → String → String)) :
    (∀ (i : String) (pre rest : List String) (p a b c : String),
       operation.operationId = some i →
       ids.contains i = false →
       paramsInPathOf verb route = pre ++ p :: rest →
       (∀ q ∈ pre, ∃ pr,
          (groupOf "path" (resolvedParamsOf parameters operation.parameters
              comps)).find? (fun x => x.name == q) = some pr ∧
            isOkE (resolveValueOpt pr.schema) = true) →
       (groupOf "path" (resolvedParamsOf parameters operation.parameters
           comps)).find? (fun x => x.name == p) = none →
       responseTypesOf operation.responses = .ok a →
       errorTypesOf operation.responses = .ok b →
       getResReqTypes [("body", operation.requestBody)] = .ok c →
       generateRestfulComponent operation verb route ids parameters comps g =
         .error (pathParamNotFoundMsg p i))
  ∧ (∀ (r : GenResult) (q : String),
       generateRestfulComponent operation verb route ids parameters comps g = .ok r →
       q ∈ paramsInPathOf verb route →
       ∃ pr ∈ groupOf "path" (resolvedParamsOf parameters operation.parameters comps),
         pr.name = q) := by
  constructor
  · intro i pre rest p a b c h1 h2 hsplit hpre hp hra hrb hrc
    unfold generateRestfulComponent
    rw [h1]
    simp only [h2, Bool.false_eq_true, if_false]
    have hpt := paramsTypesList_first_missing pre p rest
      (groupOf "path" (resolvedParamsOf parameters operation.parameters comps))
      i hpre hp
    rw [← hsplit] at hpt
    exact genMain_params_error operation verb route (ids ++ [i]) i parameters
      comps a b c (pathParamNotFoundMsg p i) hra hrb hrc hpt
  · intro r q hok hq
    unfold generateRestfulComponent at hok
    repeat' split at hok
    all_goals try exact (Except.noConfusion hok)
    all_goals {
      obtain ⟨l, hl⟩ := genMain_ok_paramsTypes _ _ _ _ _ _ _ r hok
      exact paramsTypesList_ok_names _ _ _ l hl q hq
    }

/-- C8 witness: a GET operation on `/pet/\x7bid\x7d` with no declared
parameters fails with the not-found error naming `id`. -/
theorem c8_path_param_matching_witness :
    generateRestfulComponent opPetDel "get" ("/pet/" ++ lb ++ "id" ++ rb)
        [] [] none none =
      .error (pathParamNotFoundMsg "id" "petDel") :=
  (c8_path_param_matching opPetDel "get" ("/pet/" ++ lb ++ "id" ++ rb)
      [] [] none none).1
    "petDel" [] [] "id" "void" "unknown" "void" rfl rfl rfl
    (fun q hq => absurd hq (List.not_mem_nil q)) rfl rfl rfl rfl

/-- Helper: a list starts with its own prefix. -/
theorem listStarts_append (x y : List Char) : listStarts (x ++ y) x = true := by
  induction x with
  | nil => cases y <;> simp [listStarts]
  | cons c cs ih => simp [listStarts, ih]

/-- Helper: the characters of a concatenation. -/
theorem strData_append (a b : String) : (a ++ b).data = a.data ++ b.data := by
  cases a; cases b; rfl

/-- Helper: rebuilding a string from its characters. -/
theorem strMk_data (a : String) : String.mk a.data = a := by
  cases a; rfl

/-- Helper: looking the target up after `setSchemaEnum`: an existing entry
is rewritten by `setEnumAt`, a missing one appears as the fresh object. -/
theorem lookup_setSchemaEnum (table : List (String × Schema)) (target pn nm : String) :
    lookupAList (setSchemaEnum table target pn nm) target =
      some (match lookupAList table target with
            | some sch => sch.setEnumAt pn [nm]
            | none => freshTargetSchema pn nm) := by
  induction table with
  | nil => simp [setSchemaEnum, lookupAList]
  | cons kv rest ih =>
    obtain ⟨k, v⟩ := kv
    by_cases hk : k == target
    · simp [setSchemaEnum, lookupAList, hk]
    · simp only [setSchemaEnum, hk, Bool.false_eq_true, if_false]
      simpa [lookupAList, hk] using ih

/-- Helper: looking the property up after `setPropEnum`. -/
theorem lookup_setPropEnum (pl : List (String × Schema)) (pn : String)
    (es : List String) :
    lookupAList (setPropEnum pl pn es) pn =
      some (match lookupAList pl pn with
            | some v => v.withEnum es
            | none => freshEnumSchema es) := by
  induction pl with
  | nil => simp [setPropEnum, lookupAList]
  | cons kv rest ih =>
    obtain ⟨k, v⟩ := kv
    by_cases hk : k == pn
    · simp [setPropEnum, lookupAList, hk]
    · simp only [setPropEnum, hk, Bool.false_eq_true, if_false]
      simpa [lookupAList, hk] using ih

/-- Helper: after `setEnumAt`, the discriminant property's `enum` is the
written list — provided neither the schema nor the addressed property value
is a reference node. -/
theorem propEnumOf_setEnumAt (sch : Schema) (pn : String) (es : List String)
    (href : isReference sch = false)
    (hprops : ∀ props psch, sch.propertiesF = some props →
        lookupAList props pn = some psch → isReference psch = false) :
    propEnumOf (sch.setEnumAt pn es) pn = some es := by
  cases sch with
  | ref r => simp [isReference] at href
  | inline ty e n it props a rq ao oo d dc =>
    cases props with
    | none =>
      simp [Schema.setEnumAt, propEnumOf, Schema.propertiesF, lookupAList,
        freshEnumSchema, Schema.enumF]
    | some pl =>
      simp only [Schema.setEnumAt, propEnumOf, Schema.propertiesF]
      rw [lookup_setPropEnum]
      cases hl : lookupAList pl pn with
      | none => simp [freshEnumSchema, Schema.enumF]
      | some psch =>
        have hr := hprops pl psch rfl hl
        cases psch with
        | ref r2 => simp [isReference] at hr
        | inline ty2 e2 n2 it2 p2 a2 rq2 ao2 oo2 d2 dc2 =>
          simp [Schema.withEnum, Schema.enumF]

/-- C5: for each `\x7bname, ref\x7d` pair of a discriminator mapping, a ref
not starting with `#/components/schemas/` is a fatal error; otherwise the
referenced target schema has `properties[propertyName].enum` overwritten
with the single-element list `[name]`.  On the spec's example —
`Pet` with `discriminator: \x7bpropertyName: "petType", mapping: \x7bdog:
"#/components/schemas/Dog"\x7d\x7d` — the full propagator run sets
`Dog.properties.petType.enum = ["dog"]`. -/
theorem c5_discriminator_propagation
    (table : List (String × Schema)) (nm ref pn : String) :
    (¬ strStartsWith ref "#/components/schemas/" →
       applyMappingPair pn table (nm, ref) = .error discrErrMsg)
  ∧ (∀ target sch, ref = "#/components/schemas/" ++ target →
       lookupAList table target = some sch →
       isReference sch = false →
       (∀ props psch, sch.propertiesF = some props →
           lookupAList props pn = some psch → isReference psch = false) →
       applyMappingPair pn table (nm, ref) =
           .ok (setSchemaEnum table target pn nm)
         ∧ schemaEnumAt (setSchemaEnum table target pn nm) target pn = some [nm])
  ∧ resolveDiscriminator petDogTable = .ok
      [("Pet", petSchema),
       ("Dog", .inline (some "object") none false none
          (some [("petType",
            .inline (some "string") (some ["dog"]) false none none none []
              none none none none)])
          none [] none none none none)] := by
  refine ⟨fun h => ?_, fun target sch href hlook hnr hpr => ?_, rfl⟩
  · simp [applyMappingPair, h]
  · subst href
    have hstart : strStartsWith ("#/components/schemas/" ++ target)
        "#/components/schemas/" = true := by
      simp only [strStartsWith, strData_append]
      exact listStarts_append _ _
    have hdrop : String.mk (("#/components/schemas/" ++ target).data.drop 21) =
        target := by
      rw [strData_append]
      have hlen : ("#/components/schemas/" : String).data.length = 21 := rfl
      rw [← hlen, List.drop_left, strMk_data]
    constructor
    · simp [applyMappingPair, hstart, hdrop]
    · simp only [schemaEnumAt]
      rw [lookup_setSchemaEnum, hlook]
      exact propEnumOf_setEnumAt sch pn [nm] hnr hpr

/-- C5 witness: the mapping pair `dog → #/components/schemas/Dog` with
`propertyName` `petType` rewrites `Dog` so that
`Dog.properties.petType.enum = ["dog"]`. -/
theorem c5_discriminator_propagation_witness :
    applyMappingPair "petType" petDogTable ("dog", "#/components/schemas/Dog") =
        .ok (setSchemaEnum petDogTable "Dog" "petType" "dog")
      ∧ schemaEnumAt (setSchemaEnum petDogTable "Dog" "petType" "dog")
          "Dog" "petType" = some ["dog"] :=
  (c5_discriminator_propagation petDogTable "dog" "#/components/schemas/Dog"
      "petType").2.1 "Dog" dogSchema rfl rfl rfl
    (by
      intro props psch hp hl
      simp only [dogSchema, Schema.propertiesF, Option.some.injEq] at hp
      subst hp
      simp [lookupAList] at hl
      subst hl
      rfl)

/-- C6: a components-level schema entry is emitted as a structural interface
exactly when it is an inline schema with no type tag or type `"object"`, no
`allOf`, no `oneOf`, and `nullable` unset; in every other case it is emitted
as a type alias equal to the resolved type expression.  (The hypothesis
excludes the degenerate tag `type: ""`, which JavaScript truthiness treats
like an absent tag.) -/
theorem c6_interface_vs_alias (name : String) (s : Schema)
    (hty : s.typeF ≠ some "") :
    schemaEntry name s =
      (if interfaceConditionSpec s then generateInterface name s
       else typeAliasEntry name s) := by
  have hcond : schemaEntryCond s = interfaceConditionSpec s := by
    cases s with
    | ref r => simp [schemaEntryCond, interfaceConditionSpec, isReference]
    | inline ty e n it p a rq ao oo d dc =>
      cases ty with
      | none =>
        simp [schemaEntryCond, interfaceConditionSpec, isReference, truthyStr,
          Schema.typeF, Schema.allOfF, Schema.oneOfF, Schema.nullableF]
      | some t =>
        have htne : t ≠ "" := by
          intro hcontra
          exact hty (by simp [Schema.typeF, hcontra])
        simp [schemaEntryCond, interfaceConditionSpec, isReference, truthyStr,
          Schema.typeF, Schema.allOfF, Schema.oneOfF, Schema.nullableF, htne]
  rw [schemaEntry, hcond]

/-- C6 witness: a plain object schema (no type tag, one property) is
emitted as an interface. -/
theorem c6_interface_vs_alias_witness :
    schemaEntry "Cat" catSchema = generateInterface "Cat" catSchema := by
  have h := c6_interface_vs_alias "Cat" catSchema
    (by simp [catSchema, Schema.typeF])
  rw [h]
  exact if_pos (by decide)

/-- C1 witness: the spec's worked example — a lone
`"200": \x7bcontent: \x7b"application/json": \x7bschema:
\x7b$ref: "#/components/schemas/Pet"\x7d\x7d\x7d\x7d` entry resolves the
success union to `Pet`, and the absent error group defaults to `unknown`. -/
theorem c1_witness :
    responseTypesOf petResponses = .ok "Pet" ∧
      errorTypesOf petResponses = .ok "unknown" := by
  have hm : resolveResList (petResponses.filter isOkEntry) = .ok ["Pet"] := by
    simp [petResponses, isOkEntry, resolveResList, resolveResType, resolveValueOpt,
      resolveValue, getRef, isJsonLikeContentType, strStartsWith, listStarts,
      pascal, replaceFirstOcc, removeFirstOcc, splitWordsAux, capWord, String.join]
  have hme : resolveResList (petResponses.filter isErrEntry) = .ok [] := by
    simp [petResponses, isErrEntry, resolveResList, strStartsWith, listStarts]
  have h := c1_response_partition_and_union petResponses [] ["Pet"] [] hm hme
  exact ⟨h.2.2.2.2.2.1 (by decide), h.2.2.2.2.1 rfl⟩

end OatsGen
